import Mathlib

/-!
Shallow embedding of PicoTorrent's `MainFrame` logic (the window-controller
translation unit of the repository): the torrent intake and classification
pipeline (`MainFrame::AddTorrents`), the disk-space governor
(`MainFrame::CheckDiskSpace`), the selection tracker (the
`ptEVT_TORRENT_ADDED` / `ptEVT_TORRENT_REMOVED` / `ptEVT_TORRENTS_UPDATED` /
`wxEVT_DATAVIEW_SELECTION_CHANGED` handlers) and the metadata fan-out
(`ptEVT_TORRENT_METADATA_FOUND` handler), together with proofs settling the
specification's claims about them.

External collaborators (the regex engine, the disk-space query, the display
layer, the engine session) are modelled as oracles or as emitted effect
values; machine integers are modelled as `Nat`/`Int` (the visible torrent
counter is a C++ signed `int` whose overflow is undefined behaviour, so the
defined-behaviour model is the unbounded `Int`); the floating-point ratio
comparison of the governor is modelled exactly over `ℚ` with an explicit
`total = 0` branch mirroring the IEEE behaviour (division by zero yields
`+inf` or `NaN`, both of which compare `false` under `<` against the finite
limit) — at every concrete input used in the claims the float computation is
exact, so the model and the float agree there.
-/

namespace PicoTorrent

/-- `lt::info_hash_t`: a v1 (SHA-1) and a v2 (SHA-256) info hash.  Each hash
value is modelled as the natural number its bytes denote; the all-zero
placeholder is the number 0. -/
structure InfoHashT where
  v1 : Nat
  v2 : Nat
deriving DecidableEq

/-- `info_hash_t::has_v1()` — in libtorrent this returns true iff the v1 hash
is not all zeros. -/
def InfoHashT.hasV1 (ih : InfoHashT) : Bool := ih.v1 != 0

/-- `info_hash_t::has_v2()`. -/
def InfoHashT.hasV2 (ih : InfoHashT) : Bool := ih.v2 != 0

/-- `sha1_hash::is_all_zeros()` for the v1 hash. -/
def InfoHashT.v1IsAllZeros (ih : InfoHashT) : Bool := ih.v1 == 0

/-- `sha256_hash::is_all_zeros()` for the v2 hash. -/
def InfoHashT.v2IsAllZeros (ih : InfoHashT) : Bool := ih.v2 == 0

/-- `lt::torrent_info` — the full description of a torrent; for this
development only its name is relevant (`ti->name()`). -/
structure TorrentInfo where
  name : String
deriving DecidableEq

/-- `lt::add_torrent_params` together with the `BitTorrent::AddParams`
userdata attached to it by `MainFrame::AddTorrents`.  `ti` is the optional
full description (`p.ti`), `duplicateIsError` is the
`lt::torrent_flags::duplicate_is_error` bit of `p.flags`, and `labelId` is
the `labelId` field of the fresh `AddParams` userdata (`none` = unset). -/
structure AddTorrentParams where
  ti : Option TorrentInfo
  infoHashes : InfoHashT
  name : String
  savePath : String
  duplicateIsError : Bool
  labelId : Option Int
deriving DecidableEq

/-- A user label as read from `m_cfg->GetLabels()`. -/
structure Label where
  id : Int
  name : String
  color : String
  applyFilterEnabled : Bool
  applyFilter : String
  savePathEnabled : Bool
  savePath : String
deriving DecidableEq

/-- The configuration values read by the modelled code paths. -/
structure Configuration where
  defaultSavePath : String
  skipAddTorrentDialog : Bool
  pauseOnLowDiskSpace : Bool
  pauseOnLowDiskSpaceLimit : Int
  labels : List Label
deriving DecidableEq

/-- Outcome of constructing `std::regex(pattern, ECMAScript | icase)` and
running `std::regex_search(name, re)`: construction of an invalid pattern
throws `std::regex_error` (modelled as `thrown`), otherwise the search either
matches or does not. -/
inductive RegexOutcome where
  | thrown
  | matched
  | notMatched
deriving DecidableEq

/-- The regex engine as an external oracle: pattern and subject to outcome. -/
def RegexEngine : Type := String → String → RegexOutcome

/-- The per-descriptor defaults applied at the top of the `AddTorrents`
loop: set `duplicate_is_error`, set the save path to the configured default
save path, and attach fresh `AddParams` userdata (label id unset). -/
def setupParam (cfg : Configuration) (p : AddTorrentParams) : AddTorrentParams :=
  { p with
    duplicateIsError := true
    savePath := cfg.defaultSavePath
    labelId := none }

/-- The name used for label matching, computed inside the label loop:
the name from the full description if present, overridden by `p.name` when
that is non-empty. -/
def deriveName (p : AddTorrentParams) : String :=
  let fromTi := match p.ti with
    | some ti => ti.name
    | none => ""
  if p.name.length > 0 then p.name else fromTi

/-- The metadata-pending test of `AddTorrents`: a param with a non-zero v1 or
v2 info hash and no `ti` (no full description) gets its hash collected for
the later metadata search.  Written exactly as the source condition. -/
def isMetadataPending (p : AddTorrentParams) : Bool :=
  ((p.infoHashes.hasV1 && !p.infoHashes.v1IsAllZeros)
      || (p.infoHashes.hasV2 && !p.infoHashes.v2IsAllZeros))
    && p.ti.isNone

/-- The label-matching loop of `AddTorrents` for one descriptor: iterate the
labels in order, skip a label whose apply-filter is disabled or empty, skip
when the derived name is empty, otherwise construct the regex (which may
throw, aborting the whole pass: `Except.error`) and search; on the first
match record the label id, apply the label's save-path override when enabled
and non-empty, and stop. -/
def applyLabels (re : RegexEngine) (labels : List Label) (p : AddTorrentParams) :
    Except Unit AddTorrentParams :=
  match labels with
  | [] => .ok p
  | label :: rest =>
    if !label.applyFilterEnabled || label.applyFilter.isEmpty then
      applyLabels re rest p
    else if (deriveName p).isEmpty then
      applyLabels re rest p
    else
      match re label.applyFilter (deriveName p) with
      | .thrown => .error ()
      | .matched =>
        .ok (if label.savePath.length > 0 && label.savePathEnabled then
              { p with labelId := some label.id, savePath := label.savePath }
            else { p with labelId := some label.id })
      | .notMatched => applyLabels re rest p

/-- The main loop of `AddTorrents` over the input batch, in input order:
apply the defaults, collect the hash when the descriptor is metadata-pending,
then run the label loop (whose regex construction may throw).  Returns the
processed descriptors and the collected pending hashes, or `Except.error`
when an invalid pattern threw. -/
def processParams (re : RegexEngine) (cfg : Configuration) :
    List AddTorrentParams → Except Unit (List AddTorrentParams × List InfoHashT)
  | [] => .ok ([], [])
  | p :: rest =>
    let q := setupParam cfg p
    let hs := if isMetadataPending q then [q.infoHashes] else []
    match applyLabels re cfg.labels q with
    | .error () => .error ()
    | .ok q1 =>
      match processParams re cfg rest with
      | .error () => .error ()
      | .ok (ps, hss) => .ok (q1 :: ps, hs ++ hss)

/-- An outward call made by `AddTorrents`: submit a descriptor to the session
(`m_session->AddTorrent`), open an interactive review dialog for it, or
submit the metadata search (`m_session->AddMetadataSearch`). -/
inductive Action where
  | addTorrent (p : AddTorrentParams)
  | showDialog (p : AddTorrentParams)
  | addMetadataSearch (hashes : List InfoHashT)
deriving DecidableEq

/-- `MainFrame::AddTorrents`: empty batches return immediately with no
downstream call; after classification, when `skip_add_torrent_dialog` is set
every descriptor is submitted to the session and the function returns
(without any metadata search); otherwise a review dialog is opened per
descriptor and `AddMetadataSearch(hashes)` is submitted at the end. -/
def addTorrents (re : RegexEngine) (cfg : Configuration)
    (params : List AddTorrentParams) : Except Unit (List Action) :=
  if params.isEmpty then .ok []
  else
    match processParams re cfg params with
    | .error () => .error ()
    | .ok (ps, hashes) =>
      if cfg.skipAddTorrentDialog then
        .ok (ps.map Action.addTorrent)
      else
        .ok (ps.map Action.showDialog ++ [Action.addMetadataSearch hashes])

/-- The part of `TorrentStatus` read by the modelled handlers: the info
hash, the display name, the save path, and whether the torrent is currently
paused (the paused flag is carried only to state claims about already-paused
torrents — `CheckDiskSpace` itself never reads it, exactly as the source
reads only `savePath`, `infoHash` and `name`). -/
structure TorrentStatus where
  infoHash : InfoHashT
  name : String
  savePath : String
  paused : Bool
deriving DecidableEq

/-- A `BitTorrent::TorrentHandle*`: `objId` models pointer identity, so that
two distinct handle objects for the same logical torrent (recreated objects)
are distinguishable. -/
structure TorrentHandle where
  objId : Nat
  status : TorrentStatus
deriving DecidableEq

/-- `TorrentHandle::InfoHash()`. -/
def TorrentHandle.infoHash (t : TorrentHandle) : InfoHashT := t.status.infoHash

/-- An observable effect emitted by the event handlers: status-bar counter
updates, list-model calls, the details-view reset ("selection now empty")
and refresh signals, and the governor's pause command and balloon
notification. -/
inductive Effect where
  | updateTorrentCount (n : Int)
  | modelAddTorrent (t : TorrentHandle)
  | modelRemoveTorrent (h : InfoHashT)
  | modelUpdateTorrents (ts : List TorrentHandle)
  | detailsReset
  | detailsRefresh (subset : List (InfoHashT × TorrentHandle))
  | pauseTorrent (t : TorrentHandle)
  | showBalloon (name : String)
deriving DecidableEq

/-- The governor's trigger test.  The source computes
`float(free) / float(total) < limit / 100.0f`; this is modelled exactly over
the rationals, written as the equivalent integer cross-multiplication
`free * 100 < limit * total` (for `total > 0` this is exactly
`free / total < limit / 100` over `ℚ`; see `lowDiskSpace_iff_ratio`).  The
explicit `total = 0` branch mirrors IEEE float semantics: the source divides
by zero there, producing `+inf` (free > 0) or `NaN` (free = 0), and both
compare `false` under `<` against the finite limit, so no pause triggers.
At every concrete input appearing in the claims the float computation is
exact and agrees with the rational model. -/
def lowDiskSpace (free total : Nat) (limit : Int) : Bool :=
  if total = 0 then false
  else decide ((free : Int) * 100 < limit * (total : Int))

/-- The disk-space query (`GetDiskFreeSpaceEx` on the save path), an
external oracle: `none` models a failed query (`res` false), `some (free,
total)` a successful one with the reported free and total byte counts. -/
def DiskQuery : Type := String → Option (Nat × Nat)

/-- `MainFrame::CheckDiskSpace` (the implemented `_WIN32` path): when
`pause_on_low_disk_space` is off, do nothing; otherwise, for every handle in
the batch, query the disk space of its save path (skipping the handle on
query failure) and, when the available ratio is strictly below the limit
ratio, pause the torrent and show a balloon notification naming it.  The
function keeps no state between passes. -/
def checkDiskSpace (cfg : Configuration) (disk : DiskQuery)
    (torrents : List TorrentHandle) : List Effect :=
  if !cfg.pauseOnLowDiskSpace then []
  else
    torrents.flatMap (fun t =>
      match disk t.status.savePath with
      | none => []
      | some (free, total) =>
        if lowDiskSpace free total cfg.pauseOnLowDiskSpaceLimit then
          [Effect.pauseTorrent t, Effect.showBalloon t.status.name]
        else [])

/-- A sequence of governor evaluation passes (one per `updated` batch); the
source keeps no per-hash state across passes, so a run is just the
concatenation of the independent passes. -/
def runDiskPasses (cfg : Configuration) (disk : DiskQuery)
    (passes : List (List TorrentHandle)) : List Effect :=
  passes.flatMap (checkDiskSpace cfg disk)

/-- Number of balloon notifications in an effect list. -/
def countBalloons : List Effect → Nat
  | [] => 0
  | Effect.showBalloon _ :: rest => countBalloons rest + 1
  | _ :: rest => countBalloons rest

/-- `std::map::find` on the selection map (an association list keyed by info
hash; `std::map`'s key-sorted iteration order is abstracted to insertion
order, which no modelled claim observes). -/
def mapFind {α : Type} (k : InfoHashT) : List (InfoHashT × α) → Option α
  | [] => none
  | e :: rest => if e.1 = k then some e.2 else mapFind k rest

/-- `std::map::insert`: a no-op when the key is already present, otherwise
the entry is added. -/
def mapInsert {α : Type} (m : List (InfoHashT × α)) (k : InfoHashT) (v : α) :
    List (InfoHashT × α) :=
  if (mapFind k m).isSome then m else m ++ [(k, v)]

/-- `std::map::erase` of a key (keys are unique under `mapInsert`, so
erasing every entry with the key equals erasing the found iterator). -/
def mapErase {α : Type} (k : InfoHashT) : List (InfoHashT × α) → List (InfoHashT × α)
  | [] => []
  | e :: rest => if e.1 = k then mapErase k rest else e :: mapErase k rest

/-- The `MainFrame` state touched by the modelled handlers: the visible
torrent counter `m_torrentsCount` (a C++ `int`, modelled as unbounded `Int`
since signed overflow is undefined behaviour) and the selection map
`m_selection`. -/
structure FrameState where
  torrentsCount : Int
  selection : List (InfoHashT × TorrentHandle)
deriving DecidableEq

/-- The state at construction: `m_torrentsCount(0)`, empty selection. -/
def initialFrameState : FrameState :=
  { torrentsCount := 0, selection := [] }

/-- The `ptEVT_TORRENT_ADDED` handler: increment the counter, update the
status bar, add the torrent to the list model.  The selection is untouched
(new torrents are not auto-selected). -/
def onTorrentAdded (st : FrameState) (t : TorrentHandle) : FrameState × List Effect :=
  ({ st with torrentsCount := st.torrentsCount + 1 },
    [Effect.updateTorrentCount (st.torrentsCount + 1), Effect.modelAddTorrent t])

/-- The `ptEVT_TORRENT_REMOVED` handler: decrement the counter, update the
status bar, remove the torrent from the list model; then, if the hash is in
the selection, erase it and reset the details view. -/
def onTorrentRemoved (st : FrameState) (h : InfoHashT) : FrameState × List Effect :=
  ({ st with
      torrentsCount := st.torrentsCount - 1
      selection :=
        if (mapFind h st.selection).isSome then mapErase h st.selection
        else st.selection },
    [Effect.updateTorrentCount (st.torrentsCount - 1), Effect.modelRemoveTorrent h]
      ++ (if (mapFind h st.selection).isSome then [Effect.detailsReset] else []))

/-- The `selectedUpdated` map built by the `ptEVT_TORRENTS_UPDATED` handler:
iterate the batch and insert (hash, handle) for every handle whose hash is a
key of the selection. -/
def buildSelectedUpdated (sel : List (InfoHashT × TorrentHandle)) :
    List TorrentHandle → List (InfoHashT × TorrentHandle) →
      List (InfoHashT × TorrentHandle)
  | [], acc => acc
  | t :: ts, acc =>
    if (mapFind t.infoHash sel).isSome then
      buildSelectedUpdated sel ts (mapInsert acc t.infoHash t)
    else
      buildSelectedUpdated sel ts acc

/-- The `ptEVT_TORRENTS_UPDATED` handler: update the list model, build the
selected-and-updated subset, refresh the details view with it when it is
non-empty, then run the disk-space check on the batch.  Neither the counter
nor the selection map is modified. -/
def onTorrentsUpdated (cfg : Configuration) (disk : DiskQuery) (st : FrameState)
    (ts : List TorrentHandle) : FrameState × List Effect :=
  let subset := buildSelectedUpdated st.selection ts []
  (st,
    [Effect.modelUpdateTorrents ts]
      ++ (if subset = [] then [] else [Effect.detailsRefresh subset])
      ++ checkDiskSpace cfg disk ts)

/-- The `wxEVT_DATAVIEW_SELECTION_CHANGED` handler: clear the selection;
when the new item list is empty, reset the details view, otherwise insert
each item keyed by its hash and refresh the details view with the new
selection.  The counter is untouched. -/
def onSelectionChanged (st : FrameState) (items : List TorrentHandle) :
    FrameState × List Effect :=
  if items = [] then
    ({ st with selection := [] }, [Effect.detailsReset])
  else
    let sel := items.foldl (fun acc t => mapInsert acc t.infoHash t) []
    ({ st with selection := sel }, [Effect.detailsRefresh sel])

/-- The engine / UI events reconciled by the modelled handlers. -/
inductive FrameEvent where
  | torrentAdded (t : TorrentHandle)
  | torrentRemoved (h : InfoHashT)
  | torrentsUpdated (ts : List TorrentHandle)
  | selectionChanged (items : List TorrentHandle)
deriving DecidableEq

/-- Dispatch one marshalled event to its handler. -/
def step (cfg : Configuration) (disk : DiskQuery) (st : FrameState) :
    FrameEvent → FrameState × List Effect
  | .torrentAdded t => onTorrentAdded st t
  | .torrentRemoved h => onTorrentRemoved st h
  | .torrentsUpdated ts => onTorrentsUpdated cfg disk st ts
  | .selectionChanged items => onSelectionChanged st items

/-- Process a sequence of events on the owner thread, collecting effects. -/
def run (cfg : Configuration) (disk : DiskQuery) :
    FrameState → List FrameEvent → FrameState × List Effect
  | st, [] => (st, [])
  | st, ev :: evs =>
    let r1 := step cfg disk st ev
    let r2 := run cfg disk r1.1 evs
    (r2.1, r1.2 ++ r2.2)

/-- Number of `torrentAdded` events in a sequence. -/
def countAdded : List FrameEvent → Int
  | [] => 0
  | FrameEvent.torrentAdded _ :: rest => countAdded rest + 1
  | _ :: rest => countAdded rest

/-- Number of `torrentRemoved` events in a sequence. -/
def countRemoved : List FrameEvent → Int
  | [] => 0
  | FrameEvent.torrentRemoved _ :: rest => countRemoved rest + 1
  | _ :: rest => countRemoved rest

/-- An open `AddTorrentDialog` registered in `m_addDialogs`; `objId` models
pointer identity, `param` the descriptor the dialog reviews. -/
structure AddTorrentDialog where
  objId : Nat
  param : AddTorrentParams
deriving DecidableEq

/-- Registration of a batch of newly opened review dialogs into
`m_addDialogs` (the dialog branch of `AddTorrents` inserts each dialog). -/
def registerDialogs (st : List AddTorrentDialog) (dlgs : List AddTorrentDialog) :
    List AddTorrentDialog :=
  st ++ dlgs

/-- The `ptEVT_TORRENT_METADATA_FOUND` handler: the metadata-found event
(hash and resolved description) is posted to every open add-torrent dialog
(fan-out broadcast, no filtering in `MainFrame`). -/
def postMetadataFound (dialogs : List AddTorrentDialog) (h : InfoHashT)
    (d : TorrentInfo) : List (AddTorrentDialog × InfoHashT × TorrentInfo) :=
  dialogs.map (fun dlg => (dlg, h, d))

/-- Modelled from the spec: the `AddTorrentDialog` event handler for the
metadata-found event is not part of the reviewed sources (only its caller
is); per the spec's registry contract, a consumer registered for a hash
accepts a resolution exactly when the resolution's hash is the hash it is
waiting on (the hash of the descriptor it reviews). -/
def dialogAccepts (dlg : AddTorrentDialog) (h : InfoHashT) : Bool :=
  decide (dlg.param.infoHashes = h)

/-- One resolution delivery: the broadcast from the source handler composed
with each dialog's (spec-modelled) acceptance; the result is the list of
(consumer, delivered description) pairs. -/
def resolveMetadata (dialogs : List AddTorrentDialog) (h : InfoHashT)
    (d : TorrentInfo) : List (AddTorrentDialog × TorrentInfo) :=
  (postMetadataFound dialogs h d).filterMap
    (fun e => if dialogAccepts e.1 e.2.1 then some (e.1, e.2.2) else none)

/-- The metadata-search requests contained in a list of outward calls. -/
def metadataSearchActions (acts : List Action) : List (List InfoHashT) :=
  acts.filterMap (fun a =>
    match a with
    | Action.addMetadataSearch hs => some hs
    | _ => none)

/-! Concrete fixtures used by witnesses and counterexamples. -/

/-- A regex oracle on which every constructed pattern is valid and no search
matches. -/
def reW : RegexEngine := fun _ _ => RegexOutcome.notMatched

/-- A regex oracle behaving as `std::regex` does on the failing input of the
label-matcher claim: constructing the invalid ECMAScript pattern consisting
of a single unterminated opening bracket throws `std::regex_error`; every
other pattern is valid and does not match. -/
def reStd : RegexEngine := fun pat _ =>
  if pat = "[" then RegexOutcome.thrown else RegexOutcome.notMatched

/-- Configuration: interactive review path (skip flag off), no labels. -/
def cfgW : Configuration :=
  { defaultSavePath := "/dl", skipAddTorrentDialog := false,
    pauseOnLowDiskSpace := false, pauseOnLowDiskSpaceLimit := 0, labels := [] }

/-- Configuration: skip-review path (skip flag on), no labels. -/
def cfgSkipW : Configuration :=
  { defaultSavePath := "/dl", skipAddTorrentDialog := true,
    pauseOnLowDiskSpace := false, pauseOnLowDiskSpaceLimit := 0, labels := [] }

/-- A label whose apply-filter is enabled and whose pattern is the invalid
ECMAScript pattern of a single unterminated opening bracket. -/
def labelBad : Label :=
  { id := 1, name := "bad", color := "", applyFilterEnabled := true,
    applyFilter := "[", savePathEnabled := false, savePath := "" }

/-- Configuration carrying the invalid-pattern label. -/
def cfgBad : Configuration :=
  { defaultSavePath := "/dl", skipAddTorrentDialog := true,
    pauseOnLowDiskSpace := false, pauseOnLowDiskSpaceLimit := 0,
    labels := [labelBad] }

/-- A magnet-style descriptor: a v1 info hash, no full description. -/
def pMagnetW : AddTorrentParams :=
  { ti := none, infoHashes := { v1 := 1, v2 := 0 }, name := "",
    savePath := "", duplicateIsError := false, labelId := none }

/-- A fully described descriptor (a `.torrent` file): full description and a
v1 info hash. -/
def pFullW : AddTorrentParams :=
  { ti := some { name := "dist" }, infoHashes := { v1 := 9, v2 := 0 },
    name := "", savePath := "", duplicateIsError := false, labelId := none }

/-- A metadata-pending descriptor with a non-empty explicit name. -/
def pNamed : AddTorrentParams :=
  { ti := none, infoHashes := { v1 := 5, v2 := 0 }, name := "test",
    savePath := "", duplicateIsError := false, labelId := none }

/-- Another magnet-style descriptor with a different hash. -/
def pOtherW : AddTorrentParams :=
  { ti := none, infoHashes := { v1 := 2, v2 := 0 }, name := "",
    savePath := "", duplicateIsError := false, labelId := none }

/-- Configuration with the disk-space governor enabled at a 50 % limit. -/
def cfgGov : Configuration :=
  { defaultSavePath := "", skipAddTorrentDialog := false,
    pauseOnLowDiskSpace := true, pauseOnLowDiskSpaceLimit := 50, labels := [] }

/-- Configuration with the disk-space governor disabled. -/
def cfgOff : Configuration :=
  { defaultSavePath := "", skipAddTorrentDialog := false,
    pauseOnLowDiskSpace := false, pauseOnLowDiskSpaceLimit := 0, labels := [] }

/-- A handle used for the boundary claims. -/
def tIso : TorrentHandle :=
  { objId := 1,
    status :=
      { infoHash := { v1 := 4, v2 := 0 }, name := "ubuntu.iso",
        savePath := "/iso", paused := false } }

/-- A handle whose disk query reports a zero total. -/
def tZero : TorrentHandle :=
  { objId := 2,
    status :=
      { infoHash := { v1 := 6, v2 := 0 }, name := "zero",
        savePath := "/zero", paused := false } }

/-- A downloading handle on a low-disk volume. -/
def tLow : TorrentHandle :=
  { objId := 3,
    status :=
      { infoHash := { v1 := 7, v2 := 0 }, name := "big",
        savePath := "/low", paused := false } }

/-- The same handle after the governor paused it: same object, same hash,
now reporting a paused status. -/
def tLowPaused : TorrentHandle :=
  { objId := 3,
    status :=
      { infoHash := { v1 := 7, v2 := 0 }, name := "big",
        savePath := "/low", paused := true } }

/-- Disk query reporting exactly the limit ratio: 50 free of 100 total. -/
def diskAt50 : DiskQuery := fun _ => some (50, 100)

/-- Disk query reporting strictly below the limit: 49 free of 100 total. -/
def diskAt49 : DiskQuery := fun _ => some (49, 100)

/-- Disk query reporting a zero total. -/
def diskZero : DiskQuery := fun _ => some (7, 0)

/-- Disk query that always fails. -/
def diskNone : DiskQuery := fun _ => none

/-- Two distinct selected handles. -/
def tSel1 : TorrentHandle :=
  { objId := 10,
    status :=
      { infoHash := { v1 := 10, v2 := 0 }, name := "one",
        savePath := "/one", paused := false } }

def tSel2 : TorrentHandle :=
  { objId := 11,
    status :=
      { infoHash := { v1 := 11, v2 := 0 }, name := "two",
        savePath := "/two", paused := false } }

/-- Frame state with both handles selected. -/
def stTwoSelected : FrameState :=
  { torrentsCount := 2,
    selection :=
      [({ v1 := 10, v2 := 0 }, tSel1), ({ v1 := 11, v2 := 0 }, tSel2)] }

/-- A selected handle object and a recreated handle object for the same
logical torrent (same hash, different pointer identity). -/
def tOld : TorrentHandle :=
  { objId := 20,
    status :=
      { infoHash := { v1 := 20, v2 := 0 }, name := "same",
        savePath := "/same", paused := false } }

def tNew : TorrentHandle :=
  { objId := 21,
    status :=
      { infoHash := { v1 := 20, v2 := 0 }, name := "same",
        savePath := "/same", paused := false } }

/-- Frame state in which the old handle object is selected. -/
def stOldSelected : FrameState :=
  { torrentsCount := 1, selection := [({ v1 := 20, v2 := 0 }, tOld)] }

/-- Review dialogs registered for two different hashes. -/
def dlgA : AddTorrentDialog := { objId := 1, param := pMagnetW }

def dlgB : AddTorrentDialog := { objId := 2, param := pOtherW }

/-- A resolved description delivered by the engine. -/
def tiW : TorrentInfo := { name := "resolved" }

/-! Helper lemmas. -/

/-- For a non-zero total, the integer cross-multiplication in
`lowDiskSpace` is exactly the rational ratio comparison
`free / total < limit / 100` computed by the source in floating point. -/
theorem lowDiskSpace_iff_ratio (free total : Nat) (limit : Int) (h : total ≠ 0) :
    lowDiskSpace free total limit = true ↔
      (free : ℚ) / (total : ℚ) < (limit : ℚ) / 100 := by
  have ht : (0 : ℚ) < (total : ℚ) := by exact_mod_cast Nat.pos_of_ne_zero h
  rw [lowDiskSpace, if_neg h, decide_eq_true_eq,
    div_lt_div_iff₀ ht (by norm_num : (0 : ℚ) < 100)]
  constructor
  · intro hlt
    exact_mod_cast hlt
  · intro hlt
    exact_mod_cast hlt

/-- `countBalloons` distributes over list append. -/
theorem countBalloons_append (a b : List Effect) :
    countBalloons (a ++ b) = countBalloons a + countBalloons b := by
  induction a with
  | nil => simp [countBalloons]
  | cons e rest ih =>
    cases e <;> simp [countBalloons, ih, Nat.add_right_comm]

/-- Unfolding one pass from a run of governor passes. -/
theorem runDiskPasses_cons (cfg : Configuration) (disk : DiskQuery)
    (p : List TorrentHandle) (ps : List (List TorrentHandle)) :
    runDiskPasses cfg disk (p :: ps)
      = checkDiskSpace cfg disk p ++ runDiskPasses cfg disk ps := by
  simp [runDiskPasses]

/-- A single governor pass over a single low-disk handle pauses it and shows
the balloon notification. -/
theorem checkDiskSpace_single_low (cfg : Configuration) (disk : DiskQuery)
    (t : TorrentHandle) (free total : Nat)
    (hen : cfg.pauseOnLowDiskSpace = true)
    (hdisk : disk t.status.savePath = some (free, total))
    (hlow : lowDiskSpace free total cfg.pauseOnLowDiskSpaceLimit = true) :
    checkDiskSpace cfg disk [t]
      = [Effect.pauseTorrent t, Effect.showBalloon t.status.name] := by
  simp [checkDiskSpace, hen, hdisk, hlow]

/-! Claim theorems. -/

/-- C7 (confirmed): the disk-space trigger is a strict less-than.  With
`free = 50, total = 100, limit = 50` the available ratio equals the limit
ratio and no pause or notification is issued; with `free = 49` the ratio is
strictly below and the pause and notification are issued.  (The float
computation is exact at 50/100 and the 49/100 rounding does not cross the
0.5 boundary, so the rational model agrees with the float here.) -/
theorem c7_strict_boundary :
    lowDiskSpace 50 100 50 = false
    ∧ lowDiskSpace 49 100 50 = true
    ∧ checkDiskSpace cfgGov diskAt50 [tIso] = []
    ∧ checkDiskSpace cfgGov diskAt49 [tIso]
        = [Effect.pauseTorrent tIso, Effect.showBalloon tIso.status.name] :=
  ⟨rfl, rfl, rfl, rfl⟩

/-- C8 (confirmed): a handle whose disk query reports a zero total
contributes nothing to a governor pass — deleting it from the batch leaves
the emitted effects unchanged, so no pause and no notification is issued for
it.  (In the source the float division by zero yields `+inf` or `NaN`, both
of which fail the strict comparison against the finite limit; the model's
explicit zero branch encodes exactly that observable outcome.) -/
theorem c8_zero_total_skipped (cfg : Configuration) (disk : DiskQuery)
    (t : TorrentHandle) (free : Nat) (ts1 ts2 : List TorrentHandle)
    (hdisk : disk t.status.savePath = some (free, 0)) :
    checkDiskSpace cfg disk (ts1 ++ t :: ts2)
      = checkDiskSpace cfg disk (ts1 ++ ts2) := by
  cases hc : cfg.pauseOnLowDiskSpace with
  | false => simp [checkDiskSpace, hc]
  | true => simp [checkDiskSpace, hc, hdisk, lowDiskSpace]

/-- Witness for C8 at a concrete zero-total input. -/
theorem c8_zero_total_skipped_witness :
    diskZero tZero.status.savePath = some (7, 0)
    ∧ checkDiskSpace cfgGov diskZero ([] ++ tZero :: [])
        = checkDiskSpace cfgGov diskZero ([] ++ []) :=
  ⟨rfl, c8_zero_total_skipped cfgGov diskZero tZero 7 [] [] rfl⟩

/-- C1 counterexample: `CheckDiskSpace` keeps no per-hash "already warned"
state.  In two consecutive evaluation passes over the same torrent — paused
by the first pass and still reporting a paused status (and the same low disk
space) in the second — the pause command and the balloon notification are
issued again in the second pass, so they are not issued at most once per
pause episode. -/
theorem c1_counterexample :
    tLowPaused.status.paused = true
    ∧ runDiskPasses cfgGov diskAt49 [[tLow], [tLowPaused]]
        = [Effect.pauseTorrent tLow, Effect.showBalloon tLow.status.name,
           Effect.pauseTorrent tLowPaused,
           Effect.showBalloon tLowPaused.status.name]
    ∧ countBalloons (runDiskPasses cfgGov diskAt49 [[tLow], [tLowPaused]]) = 2 :=
  ⟨rfl, rfl, rfl⟩

/-- C1 (amended): the governor is stateless across evaluation passes — for a
torrent whose save-path query keeps reporting a ratio strictly below the
limit, every pass issues the pause command and the balloon notification
again, so `n` passes produce exactly `n` notifications (there is no
per-episode tracking cleared when the torrent downloads again). -/
theorem c1_amended_notification_every_pass (cfg : Configuration)
    (disk : DiskQuery) (t : TorrentHandle) (free total : Nat)
    (hen : cfg.pauseOnLowDiskSpace = true)
    (hdisk : disk t.status.savePath = some (free, total))
    (hlow : lowDiskSpace free total cfg.pauseOnLowDiskSpaceLimit = true) :
    checkDiskSpace cfg disk [t]
        = [Effect.pauseTorrent t, Effect.showBalloon t.status.name]
    ∧ ∀ n : Nat,
        countBalloons (runDiskPasses cfg disk (List.replicate n [t])) = n := by
  refine ⟨checkDiskSpace_single_low cfg disk t free total hen hdisk hlow, ?_⟩
  intro n
  induction n with
  | zero => rfl
  | succ k ih =>
    rw [List.replicate_succ, runDiskPasses_cons, countBalloons_append,
      checkDiskSpace_single_low cfg disk t free total hen hdisk hlow, ih]
    simp [countBalloons]
    omega

/-- Witness for the amended C1 at a concrete input: two passes, two
notifications. -/
theorem c1_amended_notification_every_pass_witness :
    cfgGov.pauseOnLowDiskSpace = true
    ∧ diskAt49 tLow.status.savePath = some (49, 100)
    ∧ lowDiskSpace 49 100 cfgGov.pauseOnLowDiskSpaceLimit = true
    ∧ (checkDiskSpace cfgGov diskAt49 [tLow]
          = [Effect.pauseTorrent tLow, Effect.showBalloon tLow.status.name]
      ∧ ∀ n : Nat,
          countBalloons
            (runDiskPasses cfgGov diskAt49 (List.replicate n [tLow])) = n) :=
  ⟨rfl, rfl, rfl,
    c1_amended_notification_every_pass cfgGov diskAt49 tLow 49 100 rfl rfl rfl⟩

/-- C4 (code bug): an invalid label pattern crashes the pass instead of
being treated as a failed match.  The source constructs
`std::regex(label.applyFilter, ...)` with no surrounding try/catch, so the
`std::regex_error` thrown for an invalid pattern propagates out of
`AddTorrents`: with a single enabled label whose pattern is the invalid
`"["` and a descriptor whose derived name is non-empty, the whole pass
aborts exceptionally and nothing is submitted. -/
theorem c4_invalid_pattern_raises :
    addTorrents reStd cfgBad [pNamed] = .error () := rfl

/-- The label loop only rewrites the label id and the save path: the full
description and the info hashes of a descriptor survive it unchanged. -/
theorem applyLabels_preserves (re : RegexEngine) (labels : List Label)
    (p q : AddTorrentParams) (h : applyLabels re labels p = .ok q) :
    q.ti = p.ti ∧ q.infoHashes = p.infoHashes := by
  induction labels generalizing p with
  | nil =>
    rw [applyLabels] at h
    cases h
    exact ⟨rfl, rfl⟩
  | cons label rest ih =>
    rw [applyLabels] at h
    split at h
    · exact ih p h
    · split at h
      · exact ih p h
      · cases hre : re label.applyFilter (deriveName p) with
        | thrown => rw [hre] at h; cases h
        | notMatched => rw [hre] at h; exact ih p h
        | matched =>
          rw [hre] at h
          cases h
          constructor
          · split <;> rfl
          · split <;> rfl

/-- `setupParam` leaves the description and the hashes unchanged. -/
theorem setupParam_infoHashes (cfg : Configuration) (p : AddTorrentParams) :
    (setupParam cfg p).infoHashes = p.infoHashes := rfl

/-- C2 (confirmed): classification drops no descriptor and preserves input
order (the i-th output descriptor carries the i-th input's description and
hashes), and `pending_hashes` is exactly the in-order, duplicate-preserving
map of the info hashes of those input descriptors that lack a full
description and carry a non-placeholder v1 or v2 hash; a descriptor that is
metadata-pending necessarily lacks a full description, so one carrying both
a description and a hash never contributes a pending hash. -/
theorem c2_classification (re : RegexEngine) (cfg : Configuration)
    (params ready : List AddTorrentParams) (hashes : List InfoHashT)
    (hok : processParams re cfg params = .ok (ready, hashes)) :
    ready.length = params.length
    ∧ List.Forall₂ (fun q p => q.ti = p.ti ∧ q.infoHashes = p.infoHashes)
        ready params
    ∧ hashes = (params.filter (fun p => isMetadataPending p)).map
        (fun p => p.infoHashes)
    ∧ ∀ p : AddTorrentParams, isMetadataPending p = true → p.ti = none := by
  have hpend : ∀ p : AddTorrentParams, isMetadataPending p = true → p.ti = none := by
    intro p hp
    rw [isMetadataPending, Bool.and_eq_true] at hp
    exact Option.isNone_iff_eq_none.mp hp.2
  induction params generalizing ready hashes with
  | nil =>
    rw [processParams] at hok
    cases hok
    exact ⟨rfl, List.Forall₂.nil, rfl, hpend⟩
  | cons p rest ih =>
    rw [processParams] at hok
    cases hA : applyLabels re cfg.labels (setupParam cfg p) with
    | error e => cases e; rw [hA] at hok; cases hok
    | ok q1 =>
      rw [hA] at hok
      cases hR : processParams re cfg rest with
      | error e => cases e; rw [hR] at hok; cases hok
      | ok pr =>
        obtain ⟨ps, hss⟩ := pr
        rw [hR] at hok
        cases hok
        obtain ⟨ihlen, ihF, ihH, _⟩ := ih ps hss hR
        have hq1 := applyLabels_preserves re cfg.labels (setupParam cfg p) q1 hA
        have hset : isMetadataPending (setupParam cfg p) = isMetadataPending p :=
          rfl
        refine ⟨?_, ?_, ?_, hpend⟩
        · simp [ihlen]
        · exact List.Forall₂.cons hq1 ihF
        · rw [List.filter_cons]
          cases hmp : isMetadataPending p with
          | false => simp [hset, hmp, ihH]
          | true => simp [hset, hmp, ihH, setupParam_infoHashes]

/-- Witness for C2: a batch of two identical magnet descriptors (duplicate
pending hashes preserved) and one fully described descriptor. -/
theorem c2_classification_witness :
    processParams reW cfgW [pMagnetW, pMagnetW, pFullW]
      = .ok ([setupParam cfgW pMagnetW, setupParam cfgW pMagnetW,
              setupParam cfgW pFullW],
             [pMagnetW.infoHashes, pMagnetW.infoHashes])
    ∧ ([setupParam cfgW pMagnetW, setupParam cfgW pMagnetW,
        setupParam cfgW pFullW].length = [pMagnetW, pMagnetW, pFullW].length
      ∧ List.Forall₂ (fun q p => q.ti = p.ti ∧ q.infoHashes = p.infoHashes)
          [setupParam cfgW pMagnetW, setupParam cfgW pMagnetW,
           setupParam cfgW pFullW]
          [pMagnetW, pMagnetW, pFullW]
      ∧ [pMagnetW.infoHashes, pMagnetW.infoHashes]
          = ([pMagnetW, pMagnetW, pFullW].filter
              (fun p => isMetadataPending p)).map (fun p => p.infoHashes)
      ∧ ∀ p : AddTorrentParams, isMetadataPending p = true → p.ti = none) :=
  ⟨rfl, c2_classification reW cfgW [pMagnetW, pMagnetW, pFullW] _ _ rfl⟩

/-- The skip-interactive-review flag is not read by classification: flipping
it changes neither the processed descriptors nor the pending hashes. -/
theorem processParams_flag_irrel (re : RegexEngine) (cfg : Configuration)
    (b : Bool) (params : List AddTorrentParams) :
    processParams re { cfg with skipAddTorrentDialog := b } params
      = processParams re cfg params := by
  induction params with
  | nil => rfl
  | cons p rest ih =>
    rw [processParams, processParams]
    have hset : setupParam { cfg with skipAddTorrentDialog := b } p
        = setupParam cfg p := rfl
    have hlab : ({ cfg with skipAddTorrentDialog := b } : Configuration).labels
        = cfg.labels := rfl
    rw [hset, hlab, ih]

/-- No metadata-search request hides among direct session submissions. -/
theorem metadataSearchActions_map_addTorrent (ps : List AddTorrentParams) :
    metadataSearchActions (ps.map Action.addTorrent) = [] := by
  induction ps with
  | nil => rfl
  | cons p rest ih => simp [metadataSearchActions, ih]

/-- The dialog branch submits exactly one metadata-search request, carrying
the collected pending-hash list. -/
theorem metadataSearchActions_dialog_branch (ps : List AddTorrentParams)
    (hashes : List InfoHashT) :
    metadataSearchActions
        (ps.map Action.showDialog ++ [Action.addMetadataSearch hashes])
      = [hashes] := by
  induction ps with
  | nil => rfl
  | cons p rest ih => simp [metadataSearchActions, ih]

/-- C6 counterexample: with the skip flag set, a non-empty batch containing
a metadata-pending descriptor is submitted directly to the session and the
function returns with NO metadata-search request — the pending-hash list is
discarded, contradicting the claim that the search is submitted regardless
of the flag. -/
theorem c6_counterexample :
    isMetadataPending (setupParam cfgSkipW pMagnetW) = true
    ∧ addTorrents reW cfgSkipW [pMagnetW]
        = .ok [Action.addTorrent (setupParam cfgSkipW pMagnetW)]
    ∧ metadataSearchActions
        [Action.addTorrent (setupParam cfgSkipW pMagnetW)] = [] :=
  ⟨rfl, rfl, rfl⟩

/-- C6 (amended): for a non-empty batch that classifies successfully, the
metadata-search request carrying exactly the collected pending-hash list is
submitted only on the interactive-review path (skip flag off); with the skip
flag on, the descriptors are submitted directly and no metadata-search
request is made.  The flag does not alter classification itself. -/
theorem c6_amended_search_only_on_dialog_path (re : RegexEngine)
    (cfg : Configuration) (params ready : List AddTorrentParams)
    (hashes : List InfoHashT) (hne : params ≠ [])
    (hok : processParams re cfg params = .ok (ready, hashes)) :
    addTorrents re cfg params
      = .ok (if cfg.skipAddTorrentDialog then ready.map Action.addTorrent
             else ready.map Action.showDialog
               ++ [Action.addMetadataSearch hashes])
    ∧ metadataSearchActions
        (if cfg.skipAddTorrentDialog then ready.map Action.addTorrent
         else ready.map Action.showDialog
           ++ [Action.addMetadataSearch hashes])
      = (if cfg.skipAddTorrentDialog then [] else [hashes])
    ∧ processParams re { cfg with skipAddTorrentDialog := !cfg.skipAddTorrentDialog }
        params = .ok (ready, hashes) := by
  have hemp : params.isEmpty = false := by
    cases params with
    | nil => exact absurd rfl hne
    | cons p rest => rfl
  refine ⟨?_, ?_, ?_⟩
  · rw [addTorrents, hemp, hok]
    cases hf : cfg.skipAddTorrentDialog <;> simp [hf]
  · cases hf : cfg.skipAddTorrentDialog with
    | false => simp [metadataSearchActions_dialog_branch]
    | true => simp [metadataSearchActions_map_addTorrent]
  · rw [processParams_flag_irrel, hok]

/-- Witness for the amended C6 on the interactive-review path. -/
theorem c6_amended_search_only_on_dialog_path_witness :
    ([pMagnetW] ≠ ([] : List AddTorrentParams))
    ∧ processParams reW cfgW [pMagnetW]
        = .ok ([setupParam cfgW pMagnetW], [pMagnetW.infoHashes])
    ∧ (addTorrents reW cfgW [pMagnetW]
        = .ok (if cfgW.skipAddTorrentDialog
               then [setupParam cfgW pMagnetW].map Action.addTorrent
               else [setupParam cfgW pMagnetW].map Action.showDialog
                 ++ [Action.addMetadataSearch [pMagnetW.infoHashes]])
      ∧ metadataSearchActions
          (if cfgW.skipAddTorrentDialog
           then [setupParam cfgW pMagnetW].map Action.addTorrent
           else [setupParam cfgW pMagnetW].map Action.showDialog
             ++ [Action.addMetadataSearch [pMagnetW.infoHashes]])
        = (if cfgW.skipAddTorrentDialog then [] else [[pMagnetW.infoHashes]])
      ∧ processParams reW
          { cfgW with skipAddTorrentDialog := !cfgW.skipAddTorrentDialog }
          [pMagnetW] = .ok ([setupParam cfgW pMagnetW], [pMagnetW.infoHashes])) :=
  ⟨List.cons_ne_nil _ _, rfl,
    c6_amended_search_only_on_dialog_path reW cfgW [pMagnetW] _ _
      (List.cons_ne_nil _ _) rfl⟩

/-- Finding in an appended map when the left part lacks the key. -/
theorem mapFind_append_of_none {α : Type} (h : InfoHashT)
    (m1 m2 : List (InfoHashT × α)) (hf : mapFind h m1 = none) :
    mapFind h (m1 ++ m2) = mapFind h m2 := by
  induction m1 with
  | nil => rfl
  | cons e rest ih =>
    rw [mapFind] at hf
    by_cases he : e.1 = h
    · rw [if_pos he] at hf; cases hf
    · rw [if_neg he] at hf
      rw [List.cons_append, mapFind, if_neg he]
      exact ih hf

/-- Finding in an appended map when the left part holds the key. -/
theorem mapFind_append_of_some {α : Type} (h : InfoHashT)
    (m1 m2 : List (InfoHashT × α)) (v : α) (hf : mapFind h m1 = some v) :
    mapFind h (m1 ++ m2) = some v := by
  induction m1 with
  | nil => cases hf
  | cons e rest ih =>
    rw [mapFind] at hf
    by_cases he : e.1 = h
    · rw [if_pos he] at hf
      rw [List.cons_append, mapFind, if_pos he]
      exact hf
    · rw [if_neg he] at hf
      rw [List.cons_append, mapFind, if_neg he]
      exact ih hf

/-- Key membership after a `mapInsert`. -/
theorem mapFind_insert_isSome {α : Type} (m : List (InfoHashT × α))
    (k h : InfoHashT) (v : α) :
    (mapFind h (mapInsert m k v)).isSome = true
      ↔ (mapFind h m).isSome = true ∨ h = k := by
  rw [mapInsert]
  by_cases hk : (mapFind k m).isSome = true
  · rw [if_pos hk]
    constructor
    · exact Or.inl
    · rintro (hm | rfl)
      · exact hm
      · exact hk
  · rw [if_neg hk]
    cases hf : mapFind h m with
    | some v2 =>
      rw [mapFind_append_of_some h m _ v2 hf]
      simp [hf]
    | none =>
      rw [mapFind_append_of_none h m _ hf]
      by_cases hkh : k = h
      · simp [mapFind, hkh]
      · simp [mapFind, hkh]
        intro hh
        exact hkh hh.symm

/-- Erasing an absent key is the identity. -/
theorem mapErase_eq_of_find_none {α : Type} (h : InfoHashT)
    (m : List (InfoHashT × α)) (hf : mapFind h m = none) :
    mapErase h m = m := by
  induction m with
  | nil => rfl
  | cons e rest ih =>
    rw [mapFind] at hf
    by_cases he : e.1 = h
    · rw [if_pos he] at hf; cases hf
    · rw [if_neg he] at hf
      rw [mapErase, if_neg he, ih hf]

/-- C3 counterexample: with two torrents selected, removing one erases it
from the selection, which stays non-empty — yet the details-view reset
("selection now empty") signal is emitted, so the signal is not emitted iff
the removal left the selection empty. -/
theorem c3_counterexample :
    (onTorrentRemoved stTwoSelected { v1 := 10, v2 := 0 }).1.selection
        = [({ v1 := 11, v2 := 0 }, tSel2)]
    ∧ (onTorrentRemoved stTwoSelected { v1 := 10, v2 := 0 }).2
        = [Effect.updateTorrentCount 1,
           Effect.modelRemoveTorrent { v1 := 10, v2 := 0 },
           Effect.detailsReset] :=
  ⟨rfl, rfl⟩

/-- C3 (amended): on a removed event the hash is erased from the selection
if present, and the details-view reset signal is emitted if and only if the
removed hash was a selection key — even when other items remain selected. -/
theorem c3_amended_reset_iff_was_selected (st : FrameState) (h : InfoHashT) :
    (onTorrentRemoved st h).1.selection = mapErase h st.selection
    ∧ (Effect.detailsReset ∈ (onTorrentRemoved st h).2
        ↔ (mapFind h st.selection).isSome = true) := by
  cases hf : (mapFind h st.selection).isSome with
  | true =>
    constructor
    · simp [onTorrentRemoved, hf]
    · simp [onTorrentRemoved, hf]
  | false =>
    have hnone : mapFind h st.selection = none := by
      cases hx : mapFind h st.selection with
      | none => rfl
      | some v => rw [hx] at hf; cases hf
    constructor
    · simp [onTorrentRemoved, hf,
        mapErase_eq_of_find_none h st.selection hnone]
    · simp [onTorrentRemoved, hf]

/-- Key membership in the selected-and-updated subset: a hash is a key of
the subset built from an update batch iff it is a key of the accumulator or
it is a selection key carried by some handle of the batch. -/
theorem buildSelectedUpdated_isSome (sel : List (InfoHashT × TorrentHandle))
    (h : InfoHashT) :
    ∀ (ts : List TorrentHandle) (acc : List (InfoHashT × TorrentHandle)),
      (mapFind h (buildSelectedUpdated sel ts acc)).isSome = true
        ↔ (mapFind h acc).isSome = true
          ∨ ((mapFind h sel).isSome = true ∧ ∃ t ∈ ts, t.infoHash = h) := by
  intro ts
  induction ts with
  | nil =>
    intro acc
    simp [buildSelectedUpdated]
  | cons t rest ih =>
    intro acc
    rw [buildSelectedUpdated]
    by_cases hsel : (mapFind t.infoHash sel).isSome = true
    · rw [if_pos hsel, ih]
      constructor
      · rintro (hacc | ⟨hs, t2, ht2, heq⟩)
        · rcases (mapFind_insert_isSome acc t.infoHash h t).mp hacc with hacc2 | rfl
          · exact Or.inl hacc2
          · exact Or.inr ⟨hsel, t, List.mem_cons_self t rest, rfl⟩
        · exact Or.inr ⟨hs, t2, List.mem_cons_of_mem t ht2, heq⟩
      · rintro (hacc | ⟨hs, t2, ht2, heq⟩)
        · exact Or.inl ((mapFind_insert_isSome acc t.infoHash h t).mpr
            (Or.inl hacc))
        · rcases List.mem_cons.mp ht2 with heq2 | ht2r
          · refine Or.inl ((mapFind_insert_isSome acc t.infoHash h t).mpr
              (Or.inr ?_))
            rw [← heq, heq2]
          · exact Or.inr ⟨hs, t2, ht2r, heq⟩
    · rw [if_neg hsel, ih]
      constructor
      · rintro (hacc | ⟨hs, t2, ht2, heq⟩)
        · exact Or.inl hacc
        · exact Or.inr ⟨hs, t2, List.mem_cons_of_mem t ht2, heq⟩
      · rintro (hacc | ⟨hs, t2, ht2, heq⟩)
        · exact Or.inl hacc
        · rcases List.mem_cons.mp ht2 with heq2 | ht2r
          · have hth : t.infoHash = h := by rw [← heq2, heq]
            rw [← hth] at hs
            exact absurd hs hsel
          · exact Or.inr ⟨hs, t2, ht2r, heq⟩

/-- C5 counterexample: with the handle object `tOld` selected under its
hash, an update batch carrying the recreated handle object `tNew` for the
same logical torrent leaves the selection still holding `tOld` — the stored
handle reference is NOT replaced by the batch's handle — while the
selected-and-updated subset passed to the details view does carry `tNew`. -/
theorem c5_counterexample :
    (onTorrentsUpdated cfgOff diskNone stOldSelected [tNew]).1.selection
        = [({ v1 := 20, v2 := 0 }, tOld)]
    ∧ tOld ≠ tNew
    ∧ (onTorrentsUpdated cfgOff diskNone stOldSelected [tNew]).2
        = [Effect.modelUpdateTorrents [tNew],
           Effect.detailsRefresh [({ v1 := 20, v2 := 0 }, tNew)]] :=
  ⟨rfl, by decide, rfl⟩

/-- C5 (amended): an updated batch changes neither the frame counter nor the
selection map (stored handle references are not refreshed); a hash is a key
of the selected-and-updated subset handed to the display layer iff it is a
selection key carried by some handle of the batch (handles whose hashes are
not selection keys are excluded); and whenever that subset is non-empty the
details-view refresh carrying exactly it is emitted. -/
theorem c5_amended_subset_only (cfg : Configuration) (disk : DiskQuery)
    (st : FrameState) (ts : List TorrentHandle) (h : InfoHashT) :
    (onTorrentsUpdated cfg disk st ts).1 = st
    ∧ ((mapFind h (buildSelectedUpdated st.selection ts [])).isSome = true
        ↔ ((mapFind h st.selection).isSome = true ∧ ∃ t ∈ ts, t.infoHash = h))
    ∧ (buildSelectedUpdated st.selection ts [] = []
        ∨ Effect.detailsRefresh (buildSelectedUpdated st.selection ts [])
            ∈ (onTorrentsUpdated cfg disk st ts).2) := by
  refine ⟨rfl, ?_, ?_⟩
  · rw [buildSelectedUpdated_isSome]
    simp [mapFind]
  · by_cases hsub : buildSelectedUpdated st.selection ts [] = []
    · exact Or.inl hsub
    · refine Or.inr ?_
      simp [onTorrentsUpdated, hsub]

/-- Per-event change to the visible torrent counter: +1 on added, -1 on
removed (whether or not the hash is selected), 0 otherwise. -/
theorem step_torrentsCount (cfg : Configuration) (disk : DiskQuery)
    (st : FrameState) (ev : FrameEvent) :
    (step cfg disk st ev).1.torrentsCount
      = st.torrentsCount
        + (match ev with
           | FrameEvent.torrentAdded _ => 1
           | FrameEvent.torrentRemoved _ => -1
           | _ => 0) := by
  cases ev with
  | torrentAdded t => rfl
  | torrentRemoved h =>
    simp [step, onTorrentRemoved]
    omega
  | torrentsUpdated ts =>
    simp [step, onTorrentsUpdated]
  | selectionChanged items =>
    rw [step, onSelectionChanged]
    split <;> simp

/-- Counter evolution over an event sequence from any start state. -/
theorem run_torrentsCount (cfg : Configuration) (disk : DiskQuery) :
    ∀ (evs : List FrameEvent) (st : FrameState),
      (run cfg disk st evs).1.torrentsCount
        = st.torrentsCount + countAdded evs - countRemoved evs := by
  intro evs
  induction evs with
  | nil =>
    intro st
    simp [run, countAdded, countRemoved]
  | cons ev rest ih =>
    intro st
    rw [run]
    have hstep := step_torrentsCount cfg disk st ev
    have hrest := ih (step cfg disk st ev).1
    rw [hrest, hstep]
    cases ev <;> simp [countAdded, countRemoved] <;> omega

/-- C10 (confirmed): after any sequence of events processed on the owner
thread from the initial state, the visible torrent counter equals the number
of added events minus the number of removed events — every removed event
decrements it regardless of selection membership, and updated or
selection-changed events never modify it. -/
theorem c10_counter_invariant (cfg : Configuration) (disk : DiskQuery)
    (evs : List FrameEvent) :
    (run cfg disk initialFrameState evs).1.torrentsCount
      = countAdded evs - countRemoved evs := by
  rw [run_torrentsCount]
  simp [initialFrameState]

/-- C9 (confirmed, with the dialog's handler spec-modelled): after a batch
of review dialogs is registered, a metadata resolution for a hash is
delivered to every dialog registered for that hash before the call, and is
never delivered to a dialog registered only for a different hash. -/
theorem c9_registry_roundtrip (st new : List AddTorrentDialog)
    (h : InfoHashT) (d : TorrentInfo) (dlg : AddTorrentDialog)
    (hmem : dlg ∈ registerDialogs st new) :
    (dlg.param.infoHashes = h →
      (dlg, d) ∈ resolveMetadata (registerDialogs st new) h d)
    ∧ (dlg.param.infoHashes ≠ h →
      ∀ d2 : TorrentInfo,
        (dlg, d2) ∉ resolveMetadata (registerDialogs st new) h d) := by
  constructor
  · intro hh
    rw [resolveMetadata, postMetadataFound]
    rw [List.mem_filterMap]
    refine ⟨(dlg, h, d), List.mem_map_of_mem _ hmem, ?_⟩
    simp [dialogAccepts, hh]
  · intro hne d2 hmem2
    rw [resolveMetadata, postMetadataFound, List.mem_filterMap] at hmem2
    obtain ⟨e, hemem, hsome⟩ := hmem2
    obtain ⟨dlg0, _, rfl⟩ := List.mem_map.mp hemem
    by_cases hacc : dialogAccepts dlg0 h = true
    · rw [if_pos hacc] at hsome
      have hdlg : dlg0 = dlg := congrArg Prod.fst (Option.some.inj hsome)
      rw [dialogAccepts, hdlg, decide_eq_true_eq] at hacc
      exact hne hacc
    · rw [if_neg hacc] at hsome
      cases hsome

/-- Witness for C9: two dialogs registered for different hashes; the
resolution for the first hash reaches the first dialog and never the
second-hash dialog. -/
theorem c9_registry_roundtrip_witness :
    dlgA ∈ registerDialogs [] [dlgA, dlgB]
    ∧ ((dlgA.param.infoHashes = pMagnetW.infoHashes →
        (dlgA, tiW) ∈ resolveMetadata (registerDialogs [] [dlgA, dlgB])
          pMagnetW.infoHashes tiW)
      ∧ (dlgA.param.infoHashes ≠ pMagnetW.infoHashes →
        ∀ d2 : TorrentInfo,
          (dlgA, d2) ∉ resolveMetadata (registerDialogs [] [dlgA, dlgB])
            pMagnetW.infoHashes tiW)) :=
  ⟨List.mem_cons_self dlgA [dlgB],
    c9_registry_roundtrip [] [dlgA, dlgB] pMagnetW.infoHashes tiW dlgA
      (List.mem_cons_self dlgA [dlgB])⟩

end PicoTorrent
